import Mathlib

/-!
Shallow embedding of the DAG-growth simulator of the KaspaVisualizer
repository (two themes: the Kaspa theme in `src/unnamed/part_000` and the
Sui theme in `src/src/App.tsx`).  The two `Scene` components are textual
near-clones differing only in constants (tick interval, history cap,
parent window, parent-inclusion threshold, colour thresholds), so the
simulation step is embedded once, parameterised by a `SimConfig`, with one
concrete configuration per theme.  `Math.random()` draws are modelled as
explicit rational inputs in the order the source consumes them; wall-clock
reads (`Date.now()`) are explicit integer inputs.
-/

/-- Theme colour constant `KASPA_CYAN` (part_000 line 9). -/
def KASPA_CYAN : String := "#48Cca8"

/-- Theme colour constant `SUI_BLUE` (App.tsx line 9). -/
def SUI_BLUE : String := "#3898EC"

/-- The `BlockData` record (part_000 lines 13-21, App.tsx lines 12-21).
The Sui variant carries an extra synthetic `tps` field that no claim
concerns; it is not modelled. -/
structure BlockData where
  id : Nat
  position : ℚ × ℚ × ℚ
  parents : List Nat
  color : String
  createdAt : ℤ
  hash : String
  difficulty : Nat
deriving DecidableEq, Repr

/-- Category tags of the Kaspa theme (`'normal' | 'gold' | 'red'`). -/
inductive KaspaType where
  | normal
  | gold
  | red
deriving DecidableEq, Repr

/-- Category tags of the Sui theme (`'normal' | 'large' | 'error'`). -/
inductive SuiType where
  | normal
  | large
  | error
deriving DecidableEq, Repr

/-- Kaspa colour logic (part_000 lines 207-211): draw `rnd`, gold above
0.95, else red above 0.90, else normal. -/
def kaspaCategory (rnd : ℚ) : KaspaType :=
  if rnd > 0.95 then .gold
  else if rnd > 0.90 then .red
  else .normal

/-- Colour string chosen by the Kaspa colour logic (part_000 lines 207-211). -/
def kaspaColor (rnd : ℚ) : String :=
  if rnd > 0.95 then "#FFD700"
  else if rnd > 0.90 then "#FF4081"
  else KASPA_CYAN

/-- Sui colour logic (App.tsx lines 197-201): draw `rnd`, large above
0.95, else error above 0.98 (the source's branch order, kept verbatim),
else normal. -/
def suiCategory (rnd : ℚ) : SuiType :=
  if rnd > 0.95 then .large
  else if rnd > 0.98 then .error
  else .normal

/-- Colour string chosen by the Sui colour logic (App.tsx lines 197-201). -/
def suiColor (rnd : ℚ) : String :=
  if rnd > 0.95 then "#ffffff"
  else if rnd > 0.98 then "#FF4081"
  else SUI_BLUE

/-- Parent selection (part_000 lines 197-204, App.tsx lines 187-194):
`blocks.slice(-window)` gives the potential parents; one coin is drawn per
potential parent and the parent is pushed when the coin exceeds the
threshold; if none was pushed and the history is non-empty, the most
recent block is force-included.  `blocks.slice(-w)` is `drop (length - w)`
and the per-iteration `Math.random()` draws are the `coins` list, consumed
in order. -/
def mkParents (window : Nat) (pThresh : ℚ) (blocks : List BlockData)
    (coins : List ℚ) : List Nat :=
  let potentialParents := blocks.drop (blocks.length - window)
  let parents := (potentialParents.zip coins).filterMap
    (fun bc => if pThresh < bc.2 then some bc.1.id else none)
  if parents.isEmpty then
    match blocks.getLast? with
    | some b => [b.id]
    | none => parents
  else parents

/-- The per-theme constants of the `Scene` simulation loop. -/
structure SimConfig where
  /-- Tick interval in ms: 300 (part_000 line 185) or 600 (App.tsx line 175). -/
  interval : ℤ
  /-- History cap: 75 (part_000 line 228) or 40 (App.tsx line 218). -/
  cap : Nat
  /-- Parent window: `slice(-8)` (part_000 line 198) or `slice(-6)` (App.tsx line 188). -/
  window : Nat
  /-- Parent-inclusion threshold: 0.6 (part_000 line 200) or 0.5 (App.tsx line 190). -/
  pThresh : ℚ
  /-- Colour logic keyed by the category draw. -/
  colorOf : ℚ → String
  /-- Colour of the seeded genesis block. -/
  genesisColor : String
  /-- Stats-sink display rate: Kaspa derives it from `now` and the just-reset
  `lastTime` (part_000 line 233); Sui draws it fresh (App.tsx line 224). -/
  rateOf : ℤ → ℚ → ℚ

/-- The random draws one tick may consume, in source order: position `x`,
position `y`, one coin per potential parent, the category draw `rnd`, the
synthetic hash and difficulty, and the Sui theme's stats draw. -/
structure TickDraws where
  x : ℚ
  y : ℚ
  coins : List ℚ
  rnd : ℚ
  hash : String
  difficulty : Nat
  statsDraw : ℚ
deriving DecidableEq, Repr

/-- The mutable state of one `Scene`: the `blocks` React state, the
`lastIdRef`, `lastTimeRef` and `hasStartedRef` refs, and the stats-sink
side channel (`statsRefs.current`: `baseHeight` plus the two displayed
values, modelled as numbers). -/
structure SimState where
  blocks : List BlockData
  lastId : Nat
  lastTime : ℤ
  hasStarted : Bool
  baseHeight : Nat
  bps : ℚ
  count : Nat
deriving DecidableEq, Repr

/-- The block generator (part_000 lines 188-224, App.tsx lines 178-214):
the next id is `lastId + 1`, `z` is id times the fixed spacing 1.5, `x`
and `y` are uniform draws scaled to symmetric ranges, parents come from
`mkParents`, the colour from the category draw. -/
def newBlockOf (cfg : SimConfig) (s : SimState) (now : ℤ)
    (d : TickDraws) : BlockData :=
  { id := s.lastId + 1,
    position := ((d.x - 0.5) * 8, (d.y - 0.5) * 4, ((s.lastId + 1 : ℕ) : ℚ) * 1.5),
    parents := mkParents cfg.window cfg.pThresh s.blocks d.coins,
    color := cfg.colorOf d.rnd, createdAt := now, hash := d.hash,
    difficulty := d.difficulty }

/-- The body of a firing tick: append the generated block, `shift` the
history if it exceeds the cap (part_000 lines 226-230, App.tsx lines
216-219), reset `lastTime` to `now`, bump `lastId`, and write the
stats-sink values (part_000 lines 233-237, App.tsx lines 224-228). -/
def tickFire (cfg : SimConfig) (s : SimState) (now : ℤ)
    (d : TickDraws) : SimState :=
  let newBlock := newBlockOf cfg s now d
  let updated := s.blocks ++ [newBlock]
  let blocks' := if updated.length > cfg.cap then updated.tail else updated
  { blocks := blocks', lastId := s.lastId + 1, lastTime := now,
    hasStarted := s.hasStarted, baseHeight := s.baseHeight,
    bps := cfg.rateOf now d.statsDraw, count := s.baseHeight + (s.lastId + 1) }

/-- One invocation of the `useFrame` simulation loop (part_000 lines
180-240, App.tsx lines 170-231): no-op unless started and running; no-op
unless the interval elapsed; otherwise run the firing body `tickFire`. -/
def tick (cfg : SimConfig) (s : SimState) (isRunning : Bool) (now : ℤ)
    (d : TickDraws) : SimState :=
  if !s.hasStarted || !isRunning then s
  else if now - s.lastTime > cfg.interval then tickFire cfg s now d
  else s

/-- The Kaspa theme's constants (part_000). Its displayed rate reads the
just-reset `lastTimeRef` (equal to `now`): `1000 / (now - (now - 300))`. -/
def kaspaConfig : SimConfig :=
  { interval := 300, cap := 75, window := 8, pThresh := 0.6,
    colorOf := kaspaColor, genesisColor := KASPA_CYAN,
    rateOf := fun now _ => 1000 / ((now : ℚ) - ((now : ℚ) - 300)) }

/-- The Sui theme's constants (App.tsx). Its displayed rate is a fresh
draw: `2000 + Math.random() * 3000`. -/
def suiConfig : SimConfig :=
  { interval := 600, cap := 40, window := 6, pThresh := 0.5,
    colorOf := suiColor, genesisColor := SUI_BLUE,
    rateOf := fun _ r => 2000 + r * 3000 }

/-- The pre-seeded genesis block (part_000 lines 245-253, App.tsx lines
235-244): id 0, origin position, no parents, hash `"genesis"`. -/
def genesisBlock (cfg : SimConfig) (t0 : ℤ) : BlockData :=
  { id := 0, position := (0, 0, 0), parents := [], color := cfg.genesisColor,
    createdAt := t0, hash := "genesis", difficulty := 1 }

/-- The state after mount: history seeded with genesis, `lastIdRef` 0,
`lastTimeRef` the mount time.  `started` and `baseHeight` are set by the
startup effect (fetch handler in the Kaspa theme, immediate in the Sui
theme) and are taken as parameters. -/
def initState (cfg : SimConfig) (t0 : ℤ) (started : Bool)
    (baseHeight : Nat) : SimState :=
  { blocks := [genesisBlock cfg t0], lastId := 0, lastTime := t0,
    hasStarted := started, baseHeight := baseHeight, bps := 0, count := 0 }

/-- The inputs one frame feeds the simulation loop: the `isRunning` prop,
the wall clock, and the frame's random draws. -/
structure TickInput where
  isRunning : Bool
  now : ℤ
  draws : TickDraws
deriving DecidableEq, Repr

/-- Iterating the simulation loop over a sequence of frames. -/
def run (cfg : SimConfig) (s : SimState) : List TickInput → SimState
  | [] => s
  | i :: is => run cfg (tick cfg s i.isRunning i.now i.draws) is

/-- Whether a tick fires (passes both gates of the loop). -/
def fired (cfg : SimConfig) (s : SimState) (isRunning : Bool) (now : ℤ) : Bool :=
  s.hasStarted && isRunning && decide (now - s.lastTime > cfg.interval)

/-- The ids produced (in order) along a run, one per fired tick. -/
def runIds (cfg : SimConfig) (s : SimState) : List TickInput → List Nat
  | [] => []
  | i :: is =>
    (if fired cfg s i.isRunning i.now then [s.lastId + 1] else []) ++
      runIds cfg (tick cfg s i.isRunning i.now i.draws) is

/-- The parent ids chosen by the per-candidate coin loop. -/
def loopParents (window : Nat) (pThresh : ℚ) (blocks : List BlockData)
    (coins : List ℚ) : List Nat :=
  ((blocks.drop (blocks.length - window)).zip coins).filterMap
    (fun bc => if pThresh < bc.2 then some bc.1.id else none)

/-- The structural invariant every reachable simulation state satisfies:
the history's ids are strictly increasing (hence distinct, with the
oldest-inserted block carrying the smallest id at the front), every id in
the history is at most `lastId`, and the history length is within the
cap. -/
def SimInv (cfg : SimConfig) (s : SimState) : Prop :=
  List.Chain' (· < ·) (s.blocks.map (fun b => b.id)) ∧
  (∀ b ∈ s.blocks, b.id ≤ s.lastId) ∧
  s.blocks.length ≤ cfg.cap

/-- Selection propagation in the Kaspa theme (part_000 line 339):
`selectedBlock?.id ?? null`. -/
def kaspaSelectedBlockId (selectedBlock : Option BlockData) : Option Nat :=
  match selectedBlock with
  | some b => some b.id
  | none => none

/-- Selection propagation in the Sui theme (App.tsx line 303):
`selectedBlock?.id || null`; JavaScript `||` treats the number 0 as falsy,
so an id of 0 is propagated as `null`. -/
def suiSelectedBlockId (selectedBlock : Option BlockData) : Option Nat :=
  match selectedBlock with
  | some b => if b.id = 0 then none else some b.id
  | none => none

/-- The per-block selection flag (part_000 line 272, App.tsx line 263):
`isSelected={selectedBlockId === block.id}`; `null` compares unequal to
every id under `===`. -/
def isSelectedFlag (selectedBlockId : Option Nat) (b : BlockData) : Bool :=
  selectedBlockId == some b.id

/-- Outcome of the startup fetch chain
`fetch(url).then(res => res.json()).then(data => ...)` of the Kaspa theme
(part_000 lines 163-177).  `rejected` covers a rejected fetch (network
error) and a body on which `res.json()` rejects, both landing in the
single `.catch`.  `resolved bc` is a body that parsed as JSON: `bc` is
`data.blockCount` when `data` and that field are truthy, and `none` when
`data` is null or the field is missing or falsy.  The code never inspects
the HTTP status, so a non-2xx response with a JSON error body also lands
in `resolved`. -/
inductive FetchOutcome where
  | rejected
  | resolved (blockCount : Option Nat)
deriving DecidableEq, Repr

/-- The two cells the fetch handlers write: `statsRefs.current.baseHeight`
and `hasStartedRef.current`. -/
structure FetchState where
  baseHeight : Nat
  hasStarted : Bool
deriving DecidableEq, Repr

/-- The fetch continuation (part_000 lines 163-177): a parsed body with a
truthy `blockCount` stores it and flips the readiness flag; the `.catch`
handler stores the fallback 100000000 and flips the flag; a parsed body
without a truthy `blockCount` takes neither branch and changes nothing. -/
def handleFetch (st : FetchState) : FetchOutcome → FetchState
  | .resolved (some n) => { baseHeight := n, hasStarted := true }
  | .resolved none => st
  | .rejected => { baseHeight := 100000000, hasStarted := true }

/-- A fixed bundle of draws used to instantiate theorems at concrete
inputs. -/
def dExample : TickDraws :=
  { x := 0.3, y := 0.7, coins := [0.9, 0.1, 0.95, 0.2, 0.99, 0.5, 0.4, 0.7],
    rnd := 0.5, hash := "h", difficulty := 5, statsDraw := 0.1 }

/-- A block with the given id and neutral remaining fields, used to build
concrete states. -/
def plainBlock (i : Nat) : BlockData :=
  { id := i, position := (0, 0, 0), parents := [], color := KASPA_CYAN,
    createdAt := 0, hash := "b", difficulty := 1 }

/-- A concrete state whose history already holds 75 blocks (the Kaspa
cap), so that the next firing tick must evict. -/
def fullState : SimState :=
  { blocks := (List.range 75).map plainBlock, lastId := 74, lastTime := 0,
    hasStarted := true, baseHeight := 0, bps := 0, count := 0 }

/-- A concrete started state with an empty history. -/
def emptyHistState : SimState :=
  { blocks := [], lastId := 0, lastTime := 0, hasStarted := true,
    baseHeight := 0, bps := 0, count := 0 }

/-! ### Basic facts about the tick gate and parent selection -/

/-- A tick is exactly: the firing body when both gates pass, the identity
otherwise. -/
theorem tick_eq (cfg : SimConfig) (s : SimState) (r : Bool) (now : ℤ)
    (d : TickDraws) :
    tick cfg s r now d =
      if fired cfg s r now then tickFire cfg s now d else s := by
  unfold tick fired
  cases s.hasStarted <;> cases r <;> simp

/-- A non-firing tick is the identity on the whole state. -/
theorem tick_of_not_fired (cfg : SimConfig) (s : SimState) (r : Bool)
    (now : ℤ) (d : TickDraws) (h : fired cfg s r now = false) :
    tick cfg s r now d = s := by
  rw [tick_eq, h]
  simp

/-- A firing tick is the firing body. -/
theorem tick_of_fired (cfg : SimConfig) (s : SimState) (r : Bool)
    (now : ℤ) (d : TickDraws) (h : fired cfg s r now = true) :
    tick cfg s r now d = tickFire cfg s now d := by
  rw [tick_eq, h]
  simp

/-- `mkParents` spelled out through `loopParents`. -/
theorem mkParents_def (window : Nat) (pThresh : ℚ) (blocks : List BlockData)
    (coins : List ℚ) :
    mkParents window pThresh blocks coins =
      if loopParents window pThresh blocks coins = [] then
        match blocks.getLast? with
        | some b => [b.id]
        | none => []
      else loopParents window pThresh blocks coins := by
  simp only [mkParents, loopParents, List.isEmpty_iff]
  split
  · rename_i hemp
    cases hl : blocks.getLast? with
    | some b => simp
    | none => simpa using hemp
  · rfl

/-- Every loop-selected parent id is the id of some block of the history. -/
theorem loopParents_mem (window : ℕ) (pThresh : ℚ) (blocks : List BlockData)
    (coins : List ℚ) :
    ∀ q ∈ loopParents window pThresh blocks coins, ∃ b ∈ blocks, b.id = q := by
  intro q hq
  simp only [loopParents, List.mem_filterMap] at hq
  obtain ⟨⟨b, c⟩, hbc, hfb⟩ := hq
  split at hfb
  · simp only [Option.some.injEq] at hfb
    exact ⟨b, List.drop_subset _ _ (List.of_mem_zip hbc).1, hfb⟩
  · exact absurd hfb (by simp)

/-- Every selected parent id is the id of some block of the history. -/
theorem mkParents_mem (window : ℕ) (pThresh : ℚ) (blocks : List BlockData)
    (coins : List ℚ) :
    ∀ q ∈ mkParents window pThresh blocks coins, ∃ b ∈ blocks, b.id = q := by
  intro q hq
  rw [mkParents_def] at hq
  split at hq
  · cases hl : blocks.getLast? with
    | some b =>
      rw [hl] at hq
      simp only [List.mem_singleton] at hq
      exact ⟨b, List.mem_of_getLast?_eq_some hl, hq.symm⟩
    | none =>
      rw [hl] at hq
      simp at hq
  · exact loopParents_mem window pThresh blocks coins q hq

/-- The loop-selected parent ids form a sublist of the ids of the window. -/
theorem filterMap_zip_sublist (pThresh : ℚ) (l : List BlockData)
    (coins : List ℚ) :
    List.Sublist
      ((l.zip coins).filterMap
        (fun bc => if pThresh < bc.2 then some bc.1.id else none))
      (l.map (fun b => b.id)) := by
  induction l generalizing coins with
  | nil => simp
  | cons b bs ih =>
    cases coins with
    | nil => simp
    | cons c cs =>
      by_cases hc : pThresh < c
      · simp only [List.zip_cons_cons, List.filterMap_cons, List.map_cons, hc,
          if_pos]
        exact (ih cs).cons₂ _
      · simp only [List.zip_cons_cons, List.filterMap_cons, List.map_cons, hc,
          if_neg, not_false_iff]
        exact (ih cs).cons _

/-- The loop-selected parent ids are a sublist of the history's ids. -/
theorem loopParents_sublist (window : ℕ) (pThresh : ℚ)
    (blocks : List BlockData) (coins : List ℚ) :
    List.Sublist (loopParents window pThresh blocks coins)
      (blocks.map (fun b => b.id)) :=
  (filterMap_zip_sublist pThresh _ coins).trans
    ((blocks.drop_sublist (blocks.length - window)).map _)

/-- Parent lists never repeat an id when the history's ids are distinct. -/
theorem mkParents_nodup (window : ℕ) (pThresh : ℚ) (blocks : List BlockData)
    (coins : List ℚ) (h : (blocks.map (fun b => b.id)).Nodup) :
    (mkParents window pThresh blocks coins).Nodup := by
  rw [mkParents_def]
  split
  · cases blocks.getLast? <;> simp
  · exact List.Sublist.nodup (loopParents_sublist window pThresh blocks coins) h

/-- Parent lists never exceed the window size (the fallback adds a single
parent only to an empty list). -/
theorem mkParents_length_le (window : ℕ) (pThresh : ℚ)
    (blocks : List BlockData) (coins : List ℚ) (hw : 1 ≤ window) :
    (mkParents window pThresh blocks coins).length ≤ window := by
  rw [mkParents_def]
  split
  · cases blocks.getLast? with
    | some b => simpa using hw
    | none => simp
  · refine le_trans (List.length_filterMap_le _ _) ?_
    refine le_trans (le_of_eq (List.length_zip _ _)) ?_
    refine le_trans (min_le_left _ _) ?_
    rw [List.length_drop]
    omega

/-- With a non-empty history the parent list is non-empty (the forced
fallback fires exactly when the loop selected nothing). -/
theorem mkParents_ne_nil (window : ℕ) (pThresh : ℚ)
    (blocks : List BlockData) (coins : List ℚ) (h : blocks ≠ []) :
    mkParents window pThresh blocks coins ≠ [] := by
  rw [mkParents_def]
  split
  · cases hl : blocks.getLast? with
    | some b => simp
    | none => exact absurd (List.getLast?_eq_none_iff.mp hl) h
  · assumption

/-- With an empty history the parent list is empty: the window is empty and
the forced fallback is skipped. -/
theorem mkParents_nil (window : ℕ) (pThresh : ℚ) (coins : List ℚ) :
    mkParents window pThresh [] coins = [] := by
  rw [mkParents_def]
  simp [loopParents]

/-! ### The simulation invariant -/

/-- The history after a firing tick, spelled out. -/
theorem tickFire_blocks (cfg : SimConfig) (s : SimState) (now : ℤ)
    (d : TickDraws) :
    (tickFire cfg s now d).blocks =
      if (s.blocks ++ [newBlockOf cfg s now d]).length > cfg.cap
      then (s.blocks ++ [newBlockOf cfg s now d]).tail
      else s.blocks ++ [newBlockOf cfg s now d] := rfl

/-- A firing tick bumps `lastId` by exactly one. -/
theorem tickFire_lastId (cfg : SimConfig) (s : SimState) (now : ℤ)
    (d : TickDraws) : (tickFire cfg s now d).lastId = s.lastId + 1 := rfl

/-- A firing tick resets `lastTime` to the current time. -/
theorem tickFire_lastTime (cfg : SimConfig) (s : SimState) (now : ℤ)
    (d : TickDraws) : (tickFire cfg s now d).lastTime = now := rfl

/-- Appending a strict upper bound keeps an id list strictly increasing. -/
theorem chain_append_lt (ids : List ℕ) (n : ℕ)
    (hchain : List.Chain' (· < ·) ids) (hlt : ∀ x ∈ ids, x < n) :
    List.Chain' (· < ·) (ids ++ [n]) := by
  refine List.Chain'.append hchain (List.chain'_singleton n) ?_
  intro x hx y hy
  simp only [List.head?_cons, Option.mem_def, Option.some.injEq] at hy
  subst hy
  exact hlt x (List.mem_of_getLast?_eq_some hx)

/-- Appending the generated block keeps the history's ids strictly
increasing. -/
theorem updated_chain (cfg : SimConfig) (s : SimState) (now : ℤ)
    (d : TickDraws)
    (hchain : List.Chain' (· < ·) (s.blocks.map (fun b => b.id)))
    (hle : ∀ b ∈ s.blocks, b.id ≤ s.lastId) :
    List.Chain' (· < ·)
      ((s.blocks ++ [newBlockOf cfg s now d]).map (fun b => b.id)) := by
  rw [List.map_append]
  simp only [List.map_cons, List.map_nil]
  refine chain_append_lt _ _ hchain ?_
  intro x hx
  simp only [List.mem_map] at hx
  obtain ⟨b, hb, hbx⟩ := hx
  have hble := hle b hb
  have hnbid : (newBlockOf cfg s now d).id = s.lastId + 1 := rfl
  omega

/-- One tick preserves the simulation invariant. -/
theorem simInv_tick (cfg : SimConfig) (s : SimState) (r : Bool) (now : ℤ)
    (d : TickDraws) (h : SimInv cfg s) : SimInv cfg (tick cfg s r now d) := by
  rw [tick_eq]
  split
  case isFalse => exact h
  case isTrue =>
    obtain ⟨hchain, hle, hlen⟩ := h
    have hnbid : (newBlockOf cfg s now d).id = s.lastId + 1 := rfl
    have hchain' : List.Chain' (· < ·)
        ((s.blocks ++ [newBlockOf cfg s now d]).map (fun b => b.id)) := by
      rw [List.map_append]
      refine chain_append_lt _ _ hchain ?_
      intro x hx
      simp only [List.mem_map] at hx
      obtain ⟨b, hb, hbx⟩ := hx
      have := hle b hb
      simp only [List.map_cons, List.map_nil, hnbid]
      omega
    refine ⟨?_, ?_, ?_⟩
    · rw [tickFire_blocks]
      split
      · rw [List.map_tail]
        exact hchain'.tail
      · exact hchain'
    · intro b hb
      rw [tickFire_blocks] at hb
      have hbu : b ∈ s.blocks ++ [newBlockOf cfg s now d] := by
        split at hb
        · exact (List.tail_sublist _).subset hb
        · exact hb
      rw [tickFire_lastId]
      rcases List.mem_append.mp hbu with h1 | h2
      · exact le_trans (hle b h1) (Nat.le_succ _)
      · simp only [List.mem_singleton] at h2
        subst h2
        exact le_of_eq hnbid
    · rw [tickFire_blocks]
      split
      · rename_i hgt
        rw [List.length_tail, List.length_append]
        simp only [List.length_singleton]
        omega
      · rename_i hng
        simp only [gt_iff_lt, not_lt] at hng
        exact hng

/-- Running any frame sequence preserves the simulation invariant. -/
theorem simInv_run (cfg : SimConfig) (s : SimState) (inps : List TickInput)
    (h : SimInv cfg s) : SimInv cfg (run cfg s inps) := by
  induction inps generalizing s with
  | nil => exact h
  | cons i is ih => exact ih _ (simInv_tick cfg s i.isRunning i.now i.draws h)

/-- The seeded initial state satisfies the invariant for any cap of at
least one. -/
theorem simInv_init (cfg : SimConfig) (t0 : ℤ) (sb : Bool) (bh : ℕ)
    (hcap : 1 ≤ cfg.cap) : SimInv cfg (initState cfg t0 sb bh) := by
  refine ⟨?_, ?_, ?_⟩
  · simp [initState, genesisBlock]
  · intro b hb
    simp only [initState, List.mem_singleton] at hb
    subst hb
    simp [genesisBlock]
  · simpa [initState] using hcap

/-! ### Run-level helpers -/

/-- One step of `run`, spelled out. -/
theorem run_cons (cfg : SimConfig) (s : SimState) (i : TickInput)
    (is : List TickInput) :
    run cfg s (i :: is) =
      run cfg (tick cfg s i.isRunning i.now i.draws) is := rfl

/-- One step of `runIds`, spelled out. -/
theorem runIds_cons (cfg : SimConfig) (s : SimState) (i : TickInput)
    (is : List TickInput) :
    runIds cfg s (i :: is) =
      (if fired cfg s i.isRunning i.now then [s.lastId + 1] else []) ++
        runIds cfg (tick cfg s i.isRunning i.now i.draws) is := rfl

/-- The ids produced along a run count up by one from `lastId + 1`, and
`lastId` advances by exactly the number of fired ticks. -/
theorem runIds_range' (cfg : SimConfig) (inps : List TickInput) :
    ∀ s : SimState,
      runIds cfg s inps =
        List.range' (s.lastId + 1) (runIds cfg s inps).length ∧
      (run cfg s inps).lastId = s.lastId + (runIds cfg s inps).length := by
  induction inps with
  | nil =>
    intro s
    simp [runIds, run]
  | cons i is ih =>
    intro s
    by_cases hf : fired cfg s i.isRunning i.now = true
    · have ht : tick cfg s i.isRunning i.now i.draws =
          tickFire cfg s i.now i.draws :=
        tick_of_fired cfg s i.isRunning i.now i.draws hf
      obtain ⟨ih1, ih2⟩ := ih (tickFire cfg s i.now i.draws)
      rw [runIds_cons, run_cons, ht, if_pos hf]
      rw [tickFire_lastId] at ih1 ih2
      constructor
      · rw [List.singleton_append, List.length_cons, List.range'_succ]
        exact congrArg (List.cons (s.lastId + 1)) ih1
      · rw [List.singleton_append, List.length_cons, ih2]
        omega
    · have ht : tick cfg s i.isRunning i.now i.draws = s :=
        tick_of_not_fired cfg s i.isRunning i.now i.draws
          (Bool.not_eq_true _ ▸ Bool.of_not_eq_true hf)
      obtain ⟨ih1, ih2⟩ := ih s
      rw [runIds_cons, run_cons, ht, if_neg hf]
      simpa using ⟨ih1, ih2⟩

/-- The ids of every reachable history are pairwise distinct. -/
theorem run_ids_nodup (cfg : SimConfig) (hcap : 1 ≤ cfg.cap) (t0 : ℤ)
    (sb : Bool) (bh : ℕ) (inps : List TickInput) :
    (((run cfg (initState cfg t0 sb bh) inps).blocks.map
      (fun b => b.id)).Nodup) := by
  have h := simInv_run cfg _ inps (simInv_init cfg t0 sb bh hcap)
  exact (List.chain'_iff_pairwise.mp h.1).nodup

/-! ### Claim theorems -/

/-- C7: a Growth Clock invocation whose elapsed time since the last fire
is below the interval threshold (300 ms in the Kaspa theme, 600 ms in the
Sui theme) leaves the whole simulation state — history, refs and
stats-sink values — unchanged; the tick has no access to the selection
state, which is owned by `App` and mutated only by pointer events. -/
theorem C7_below_interval_no_mutation (s : SimState) (r : Bool) (now : ℤ)
    (d : TickDraws) :
    (now - s.lastTime < 300 → tick kaspaConfig s r now d = s) ∧
    (now - s.lastTime < 600 → tick suiConfig s r now d = s) := by
  constructor <;>
    · intro h
      refine tick_of_not_fired _ _ _ _ _ ?_
      simp only [fired, kaspaConfig, suiConfig, Bool.and_eq_false_iff,
        decide_eq_false_iff_not, not_lt]
      right
      omega

/-- Witness for C7 at a concrete below-interval input. -/
theorem C7_below_interval_no_mutation_witness :
    ((0 : ℤ) - (initState kaspaConfig 0 true 0).lastTime < 300 ∧
      tick kaspaConfig (initState kaspaConfig 0 true 0) true 0 dExample =
        initState kaspaConfig 0 true 0) ∧
    ((0 : ℤ) - (initState suiConfig 0 true 0).lastTime < 600 ∧
      tick suiConfig (initState suiConfig 0 true 0) true 0 dExample =
        initState suiConfig 0 true 0) :=
  ⟨⟨by decide,
    (C7_below_interval_no_mutation (initState kaspaConfig 0 true 0) true 0
      dExample).1 (by decide)⟩,
   ⟨by decide,
    (C7_below_interval_no_mutation (initState suiConfig 0 true 0) true 0
      dExample).2 (by decide)⟩⟩

/-- C8: a single Growth Clock invocation appends at most one entity no
matter how much wall-clock time elapsed (no catch-up or backfill), and a
firing invocation resets the last-fire timestamp to the current time. -/
theorem C8_single_block_per_tick (cfg : SimConfig) (s : SimState)
    (r : Bool) (now : ℤ) (d : TickDraws) :
    (tick cfg s r now d).blocks.length ≤ s.blocks.length + 1 ∧
    (fired cfg s r now = true → (tick cfg s r now d).lastTime = now) := by
  rw [tick_eq]
  by_cases hf : fired cfg s r now = true
  · rw [if_pos hf]
    refine ⟨?_, fun _ => tickFire_lastTime cfg s now d⟩
    rw [tickFire_blocks]
    split
    · rw [List.length_tail, List.length_append, List.length_singleton]
      omega
    · rw [List.length_append, List.length_singleton]
  · rw [if_neg (by simpa using hf)]
    exact ⟨Nat.le_succ _, fun h => absurd h hf⟩

/-- Witness for C8 at a concrete firing input with a large elapsed time. -/
theorem C8_single_block_per_tick_witness :
    (tick kaspaConfig (initState kaspaConfig 0 true 0) true 1000000
        dExample).blocks.length ≤
      (initState kaspaConfig 0 true 0).blocks.length + 1 ∧
    fired kaspaConfig (initState kaspaConfig 0 true 0) true 1000000 = true ∧
    (tick kaspaConfig (initState kaspaConfig 0 true 0) true 1000000
        dExample).lastTime = 1000000 :=
  ⟨(C8_single_block_per_tick kaspaConfig (initState kaspaConfig 0 true 0)
      true 1000000 dExample).1,
   by decide,
   (C8_single_block_per_tick kaspaConfig (initState kaspaConfig 0 true 0)
      true 1000000 dExample).2 (by decide)⟩

/-- C9: the Block Generator on an empty history produces a valid entity
(next id, all fields assigned) whose parent list is empty; the forced
fallback parent is added only when at least one prior entity exists. -/
theorem C9_empty_history_generator (window : Nat) (pThresh : ℚ)
    (coins : List ℚ) (cfg : SimConfig) (s : SimState) (now : ℤ)
    (d : TickDraws) :
    mkParents window pThresh [] coins = [] ∧
    (s.blocks = [] → (newBlockOf cfg s now d).parents = []) ∧
    (s.blocks ≠ [] → (newBlockOf cfg s now d).parents ≠ []) ∧
    (newBlockOf cfg s now d).id = s.lastId + 1 := by
  refine ⟨mkParents_nil window pThresh coins, ?_, ?_, rfl⟩
  · intro h
    show mkParents cfg.window cfg.pThresh s.blocks d.coins = []
    rw [h]
    exact mkParents_nil cfg.window cfg.pThresh d.coins
  · intro h
    exact mkParents_ne_nil cfg.window cfg.pThresh s.blocks d.coins h

/-- Witness for C9 at a concrete empty-history state. -/
theorem C9_empty_history_generator_witness :
    mkParents 8 0.6 [] [0.9] = [] ∧
    emptyHistState.blocks = [] ∧
    (newBlockOf kaspaConfig emptyHistState 1000 dExample).parents = [] ∧
    (initState kaspaConfig 0 true 0).blocks ≠ [] ∧
    (newBlockOf kaspaConfig (initState kaspaConfig 0 true 0) 1000
      dExample).parents ≠ [] :=
  ⟨(C9_empty_history_generator 8 0.6 [0.9] kaspaConfig emptyHistState 1000
      dExample).1,
   by decide,
   (C9_empty_history_generator 8 0.6 [0.9] kaspaConfig emptyHistState 1000
      dExample).2.1 (by decide),
   by decide,
   (C9_empty_history_generator 8 0.6 [0.9] kaspaConfig
      (initState kaspaConfig 0 true 0) 1000 dExample).2.2.1 (by decide)⟩

/-- C1 counterexample: in the Sui theme a draw of 0.99 lies above 0.98 yet
yields the first category `large`, not the second category `error`,
refuting "in the second theme the second category is reachable exactly for
draws above 0.98". -/
theorem C1_category_counterexample :
    (0.99 : ℚ) > 0.98 ∧ suiCategory 0.99 = SuiType.large ∧
      SuiType.large ≠ SuiType.error := by
  refine ⟨by norm_num, ?_, by decide⟩
  norm_num [suiCategory]

/-- C1 (amended): the category draw is deterministic given the random
source: a draw of 0.97 yields the rarest high-threshold category (gold in
the Kaspa theme, large in the Sui theme); a draw of 0.92 yields the second
category in the Kaspa theme only; the Kaspa theme tests >0.95 then >0.90
and the Sui theme >0.95 then >0.98 — and since the first test subsumes the
second, the Sui theme's second category is unreachable for every draw
(rather than reachable exactly above 0.98). -/
theorem C1_category_draw (r : ℚ) :
    kaspaCategory 0.97 = KaspaType.gold ∧
    suiCategory 0.97 = SuiType.large ∧
    kaspaCategory 0.92 = KaspaType.red ∧
    suiCategory 0.92 = SuiType.normal ∧
    (kaspaCategory r = KaspaType.gold ↔ r > 0.95) ∧
    (kaspaCategory r = KaspaType.red ↔ (¬r > 0.95 ∧ r > 0.90)) ∧
    (suiCategory r = SuiType.large ↔ r > 0.95) ∧
    suiCategory r ≠ SuiType.error := by
  refine ⟨by norm_num [kaspaCategory], by norm_num [suiCategory],
    by norm_num [kaspaCategory], by norm_num [suiCategory], ?_, ?_, ?_, ?_⟩
  · unfold kaspaCategory
    split
    · simp_all
    · split <;> simp_all
  · unfold kaspaCategory
    split
    · simp_all
    · split <;> simp_all
  · unfold suiCategory
    split
    · simp_all
    · split <;> simp_all
  · unfold suiCategory
    split
    · simp
    · split
      · rename_i h95 h98
        exact absurd (lt_trans (by norm_num : (0.95 : ℚ) < 0.98) h98) h95
      · simp

/-- C2: after any number of ticks the history length never exceeds the
fixed cap (75 in the Kaspa theme, 40 in the Sui theme); and whenever a
firing tick's append would exceed the cap, the evicted entity is the front
of the history — the entity with the lowest surviving id (FIFO by
insertion order) — whose id is strictly below that of every remaining
entity. -/
theorem C2_bounded_history (t0 : ℤ) (sb : Bool) (bh : ℕ)
    (inps : List TickInput) (cfg : SimConfig) (s : SimState) (r : Bool)
    (now : ℤ) (d : TickDraws) :
    ((run kaspaConfig (initState kaspaConfig t0 sb bh) inps).blocks.length ≤ 75 ∧
     (run suiConfig (initState suiConfig t0 sb bh) inps).blocks.length ≤ 40) ∧
    (SimInv cfg s → fired cfg s r now = true →
      (s.blocks ++ [newBlockOf cfg s now d]).length > cfg.cap →
      (tick cfg s r now d).blocks =
        (s.blocks ++ [newBlockOf cfg s now d]).tail ∧
      ∀ a ∈ s.blocks.head?, ∀ b ∈ (tick cfg s r now d).blocks,
        a.id < b.id) := by
  constructor
  · constructor
    · exact (simInv_run kaspaConfig _ inps
        (simInv_init kaspaConfig t0 sb bh (by decide))).2.2
    · exact (simInv_run suiConfig _ inps
        (simInv_init suiConfig t0 sb bh (by decide))).2.2
  · intro hInv hf hov
    rw [tick_of_fired cfg s r now d hf, tickFire_blocks, if_pos hov]
    refine ⟨rfl, ?_⟩
    intro a ha b hb
    cases hbl : s.blocks with
    | nil =>
      rw [hbl] at ha
      simp at ha
    | cons x xs =>
      rw [hbl] at ha
      simp only [List.head?_cons, Option.mem_def, Option.some.injEq] at ha
      subst ha
      have hchain' := updated_chain cfg s now d hInv.1 hInv.2.1
      rw [hbl, List.cons_append, List.map_cons] at hchain'
      have hp := (List.chain'_iff_pairwise.mp hchain')
      rw [List.pairwise_cons] at hp
      rw [hbl, List.cons_append, List.tail_cons] at hb
      exact hp.1 b.id (List.mem_map_of_mem _ hb)

/-- Witness for C2's eviction clause at a history already holding 75
blocks (the Kaspa cap). -/
theorem C2_bounded_history_witness :
    (run kaspaConfig (initState kaspaConfig 0 true 0) []).blocks.length ≤ 75 ∧
    SimInv kaspaConfig fullState ∧
    fired kaspaConfig fullState true 1000 = true ∧
    (fullState.blocks ++
      [newBlockOf kaspaConfig fullState 1000 dExample]).length >
        kaspaConfig.cap ∧
    ((tick kaspaConfig fullState true 1000 dExample).blocks =
      (fullState.blocks ++
        [newBlockOf kaspaConfig fullState 1000 dExample]).tail ∧
     ∀ a ∈ fullState.blocks.head?,
       ∀ b ∈ (tick kaspaConfig fullState true 1000 dExample).blocks,
         a.id < b.id) := by
  have hInv : SimInv kaspaConfig fullState :=
    ⟨List.chain'_iff_pairwise.mpr (by decide), by decide, by decide⟩
  have hf : fired kaspaConfig fullState true 1000 = true := by decide
  have hov : (fullState.blocks ++
      [newBlockOf kaspaConfig fullState 1000 dExample]).length >
        kaspaConfig.cap := by decide
  exact ⟨(C2_bounded_history 0 true 0 [] kaspaConfig fullState true 1000
      dExample).1.1, hInv, hf, hov,
    (C2_bounded_history 0 true 0 [] kaspaConfig fullState true 1000
      dExample).2 hInv hf hov⟩

/-- C3: along every run of either theme, the Block Generator invoked on a
non-empty history produces a non-empty parent list, and every referenced
parent id is the id of a block already in the history, each strictly
smaller than the generated id (no forward and no self references). -/
theorem C3_parent_references (cfg : SimConfig)
    (hcfg : cfg = kaspaConfig ∨ cfg = suiConfig) (t0 : ℤ) (sb : Bool)
    (bh : ℕ) (inps : List TickInput) (now : ℤ) (d : TickDraws)
    (hne : (run cfg (initState cfg t0 sb bh) inps).blocks ≠ []) :
    (newBlockOf cfg (run cfg (initState cfg t0 sb bh) inps) now d).parents
        ≠ [] ∧
    ∀ p ∈ (newBlockOf cfg (run cfg (initState cfg t0 sb bh) inps) now
        d).parents,
      (∃ b ∈ (run cfg (initState cfg t0 sb bh) inps).blocks, b.id = p) ∧
      p < (newBlockOf cfg (run cfg (initState cfg t0 sb bh) inps) now
        d).id := by
  have hcap : 1 ≤ cfg.cap := by
    rcases hcfg with h | h <;> subst h <;> decide
  have hInv := simInv_run cfg _ inps (simInv_init cfg t0 sb bh hcap)
  constructor
  · exact mkParents_ne_nil cfg.window cfg.pThresh _ d.coins hne
  · intro p hp
    have hmem := mkParents_mem cfg.window cfg.pThresh
      (run cfg (initState cfg t0 sb bh) inps).blocks d.coins p hp
    refine ⟨hmem, ?_⟩
    obtain ⟨b, hb, hbid⟩ := hmem
    have hble := hInv.2.1 b hb
    show p < (run cfg (initState cfg t0 sb bh) inps).lastId + 1
    omega

/-- Witness for C3 at the seeded initial history. -/
theorem C3_parent_references_witness :
    (run kaspaConfig (initState kaspaConfig 0 true 0) []).blocks ≠ [] ∧
    ((newBlockOf kaspaConfig
        (run kaspaConfig (initState kaspaConfig 0 true 0) []) 1000
        dExample).parents ≠ [] ∧
     ∀ p ∈ (newBlockOf kaspaConfig
        (run kaspaConfig (initState kaspaConfig 0 true 0) []) 1000
        dExample).parents,
       (∃ b ∈ (run kaspaConfig (initState kaspaConfig 0 true 0) []).blocks,
          b.id = p) ∧
       p < (newBlockOf kaspaConfig
        (run kaspaConfig (initState kaspaConfig 0 true 0) []) 1000
        dExample).id) := by
  have hne : (run kaspaConfig (initState kaspaConfig 0 true 0) []).blocks
      ≠ [] := by decide
  exact ⟨hne, C3_parent_references kaspaConfig (Or.inl rfl) 0 true 0 [] 1000
    dExample hne⟩

/-- C4: along every run the generated ids are exactly 1, 2, 3, …
(strictly increasing by exactly one starting at 1, one id per fired
tick, `lastId` counting them), and the genesis entity is pre-seeded with
id 0 and no parents rather than produced by the Growth Clock. -/
theorem C4_id_sequence (cfg : SimConfig) (t0 : ℤ) (sb : Bool) (bh : ℕ)
    (inps : List TickInput) :
    runIds cfg (initState cfg t0 sb bh) inps =
      List.range' 1 (runIds cfg (initState cfg t0 sb bh) inps).length ∧
    (run cfg (initState cfg t0 sb bh) inps).lastId =
      (runIds cfg (initState cfg t0 sb bh) inps).length ∧
    (initState cfg t0 sb bh).blocks = [genesisBlock cfg t0] ∧
    (genesisBlock cfg t0).id = 0 ∧
    (genesisBlock cfg t0).parents = [] := by
  obtain ⟨h1, h2⟩ := runIds_range' cfg inps (initState cfg t0 sb bh)
  refine ⟨?_, ?_, rfl, rfl, rfl⟩
  · simpa [initState] using h1
  · simpa [initState] using h2

/-- C10: along every run of either theme the generated entity's parent
list repeats no id, and its length is at most the parent window (8 in
the Kaspa theme, 6 in the Sui theme). -/
theorem C10_parent_window (t0 : ℤ) (sb : Bool) (bh : ℕ)
    (inps : List TickInput) (now : ℤ) (d : TickDraws) :
    ((newBlockOf kaspaConfig
        (run kaspaConfig (initState kaspaConfig t0 sb bh) inps) now
        d).parents.Nodup ∧
     (newBlockOf kaspaConfig
        (run kaspaConfig (initState kaspaConfig t0 sb bh) inps) now
        d).parents.length ≤ 8) ∧
    ((newBlockOf suiConfig
        (run suiConfig (initState suiConfig t0 sb bh) inps) now
        d).parents.Nodup ∧
     (newBlockOf suiConfig
        (run suiConfig (initState suiConfig t0 sb bh) inps) now
        d).parents.length ≤ 6) := by
  refine ⟨⟨?_, ?_⟩, ?_, ?_⟩
  · exact mkParents_nodup kaspaConfig.window kaspaConfig.pThresh _ d.coins
      (run_ids_nodup kaspaConfig (by decide) t0 sb bh inps)
  · exact mkParents_length_le kaspaConfig.window kaspaConfig.pThresh _
      d.coins (by decide)
  · exact mkParents_nodup suiConfig.window suiConfig.pThresh _ d.coins
      (run_ids_nodup suiConfig (by decide) t0 sb bh inps)
  · exact mkParents_length_le suiConfig.window suiConfig.pThresh _
      d.coins (by decide)

/-- C5 counterexample: in the Sui theme the genesis entity (id 0) is a
valid clickable entity of the seeded history, yet selecting it propagates
`selectedBlock?.id || null`, and JavaScript `||` maps the falsy id 0 to
`null`, so no entity is marked selected — refuting "after selecting a
valid entity exactly that entity is marked selected" for the second
theme. -/
theorem C5_selection_counterexample :
    genesisBlock suiConfig 0 ∈ (initState suiConfig 0 true 0).blocks ∧
    suiSelectedBlockId (some (genesisBlock suiConfig 0)) = none ∧
    isSelectedFlag (suiSelectedBlockId (some (genesisBlock suiConfig 0)))
      (genesisBlock suiConfig 0) = false := by
  decide

/-- C5 (amended): clearing the selection (passing null) marks no entity in
either theme; in the Kaspa theme selecting any entity of a
duplicate-free history marks exactly that entity; in the Sui theme the id
passes through JavaScript `||`, so selecting an entity with nonzero id
marks exactly that entity while selecting the id-0 genesis entity marks
none; at most one entity is marked at any time; and every reachable
history has pairwise distinct ids. -/
theorem C5_selection (sel : Option Nat) (blocks : List BlockData)
    (b b' : BlockData) (cfg : SimConfig) (t0 : ℤ) (sb : Bool) (bh : ℕ)
    (inps : List TickInput) :
    (∀ c : BlockData, isSelectedFlag (kaspaSelectedBlockId none) c = false) ∧
    (∀ c : BlockData, isSelectedFlag (suiSelectedBlockId none) c = false) ∧
    ((blocks.map (fun x => x.id)).Nodup → b ∈ blocks → b' ∈ blocks →
      (isSelectedFlag (kaspaSelectedBlockId (some b)) b' = true ↔
        b' = b)) ∧
    ((blocks.map (fun x => x.id)).Nodup → b ∈ blocks → b' ∈ blocks →
      b.id ≠ 0 →
      (isSelectedFlag (suiSelectedBlockId (some b)) b' = true ↔ b' = b)) ∧
    (b.id = 0 → ∀ c : BlockData,
      isSelectedFlag (suiSelectedBlockId (some b)) c = false) ∧
    ((blocks.map (fun x => x.id)).Nodup → b ∈ blocks → b' ∈ blocks →
      isSelectedFlag sel b = true → isSelectedFlag sel b' = true →
      b = b') ∧
    ((cfg = kaspaConfig ∨ cfg = suiConfig) →
      (((run cfg (initState cfg t0 sb bh) inps).blocks.map
        (fun x => x.id)).Nodup)) := by
  refine ⟨fun c => rfl, fun c => rfl, ?_, ?_, ?_, ?_, ?_⟩
  · intro hnd hb hb'
    simp only [isSelectedFlag, kaspaSelectedBlockId, beq_iff_eq,
      Option.some.injEq]
    constructor
    · intro h
      exact List.inj_on_of_nodup_map hnd hb' hb h.symm
    · intro h
      rw [h]
  · intro hnd hb hb' hz
    simp only [suiSelectedBlockId, if_neg hz, isSelectedFlag, beq_iff_eq,
      Option.some.injEq]
    constructor
    · intro h
      exact List.inj_on_of_nodup_map hnd hb' hb h.symm
    · intro h
      rw [h]
  · intro hz c
    simp [suiSelectedBlockId, hz, isSelectedFlag]
  · intro hnd hb hb' hsb hsb'
    cases sel with
    | none => simp [isSelectedFlag] at hsb
    | some n =>
      simp only [isSelectedFlag, beq_iff_eq, Option.some.injEq] at hsb hsb'
      exact List.inj_on_of_nodup_map hnd hb hb' (hsb ▸ hsb')
  · intro hcfg
    rcases hcfg with h | h <;> subst h
    · exact run_ids_nodup kaspaConfig (by decide) t0 sb bh inps
    · exact run_ids_nodup suiConfig (by decide) t0 sb bh inps

/-- Witness for C5 at a concrete two-block history. -/
theorem C5_selection_witness :
    (([plainBlock 0, plainBlock 1].map (fun x => x.id)).Nodup ∧
     plainBlock 1 ∈ [plainBlock 0, plainBlock 1] ∧
     (plainBlock 1).id ≠ 0 ∧
     isSelectedFlag (some 1) (plainBlock 1) = true ∧
     (plainBlock 0).id = 0) ∧
    isSelectedFlag (kaspaSelectedBlockId none) (plainBlock 0) = false ∧
    (isSelectedFlag (kaspaSelectedBlockId (some (plainBlock 1)))
      (plainBlock 1) = true ↔ plainBlock 1 = plainBlock 1) ∧
    (isSelectedFlag (suiSelectedBlockId (some (plainBlock 1)))
      (plainBlock 1) = true ↔ plainBlock 1 = plainBlock 1) ∧
    (∀ c : BlockData,
      isSelectedFlag (suiSelectedBlockId (some (plainBlock 0))) c =
        false) ∧
    plainBlock 1 = plainBlock 1 := by
  have hnd : (([plainBlock 0, plainBlock 1]).map (fun x => x.id)).Nodup := by
    decide
  have hb : plainBlock 1 ∈ [plainBlock 0, plainBlock 1] := by decide
  have hz : (plainBlock 1).id ≠ 0 := by decide
  have hflag : isSelectedFlag (some 1) (plainBlock 1) = true := by decide
  refine ⟨⟨hnd, hb, hz, hflag, by decide⟩, ?_, ?_, ?_, ?_, ?_⟩
  · exact (C5_selection (some 1) [plainBlock 0, plainBlock 1] (plainBlock 1)
      (plainBlock 1) kaspaConfig 0 true 0 []).1 (plainBlock 0)
  · exact (C5_selection (some 1) [plainBlock 0, plainBlock 1] (plainBlock 1)
      (plainBlock 1) kaspaConfig 0 true 0 []).2.2.1 hnd hb hb
  · exact (C5_selection (some 1) [plainBlock 0, plainBlock 1] (plainBlock 1)
      (plainBlock 1) kaspaConfig 0 true 0 []).2.2.2.1 hnd hb hb hz
  · exact (C5_selection (some 1) [plainBlock 0, plainBlock 1] (plainBlock 0)
      (plainBlock 0) kaspaConfig 0 true 0 []).2.2.2.2.1 (by decide)
  · exact (C5_selection (some 1) [plainBlock 0, plainBlock 1] (plainBlock 1)
      (plainBlock 1) kaspaConfig 0 true 0 []).2.2.2.2.2.1 hnd hb hb hflag
      hflag

/-- C6 counterexample: a fetch that resolves with a JSON body lacking a
truthy `blockCount` (for instance a non-2xx response carrying a JSON error
body, whose status the code never inspects) takes neither the success
branch nor the catch: the fallback is not substituted and the readiness
flag is never set — refuting "for every failure outcome the fallback is
substituted, after which the readiness flag is set and the simulation
proceeds". -/
theorem C6_fetch_counterexample :
    handleFetch ⟨0, false⟩ (FetchOutcome.resolved none) = ⟨0, false⟩ ∧
    (handleFetch ⟨0, false⟩ (FetchOutcome.resolved none)).hasStarted =
      false ∧
    (handleFetch ⟨0, false⟩ (FetchOutcome.resolved none)).baseHeight ≠
      100000000 := by
  decide

/-- C6 (amended): outcomes reaching the single catch handler (a rejected
fetch, or a body on which JSON parsing fails) are masked by the fixed
fallback 100000000 and set the readiness flag; a resolved body with a
truthy `blockCount` stores it and sets the flag; a resolved body without
one takes neither branch and changes nothing, leaving the flag clear; and
while the readiness flag is clear the Growth Clock takes no action at
all. -/
theorem C6_fetch_masking (st : FetchState) (n : ℕ) (cfg : SimConfig)
    (s : SimState) (r : Bool) (now : ℤ) (d : TickDraws) :
    handleFetch st FetchOutcome.rejected =
      { baseHeight := 100000000, hasStarted := true } ∧
    handleFetch st (FetchOutcome.resolved (some n)) =
      { baseHeight := n, hasStarted := true } ∧
    handleFetch st (FetchOutcome.resolved none) = st ∧
    (s.hasStarted = false → tick cfg s r now d = s) := by
  refine ⟨rfl, rfl, rfl, ?_⟩
  intro h
  unfold tick
  rw [h]
  simp

/-- Witness for C6 at a concrete not-yet-started state. -/
theorem C6_fetch_masking_witness :
    (initState kaspaConfig 0 false 0).hasStarted = false ∧
    handleFetch ⟨7, false⟩ FetchOutcome.rejected =
      { baseHeight := 100000000, hasStarted := true } ∧
    tick kaspaConfig (initState kaspaConfig 0 false 0) true 1000000
      dExample = initState kaspaConfig 0 false 0 :=
  ⟨by decide,
   (C6_fetch_masking ⟨7, false⟩ 3 kaspaConfig
     (initState kaspaConfig 0 false 0) true 1000000 dExample).1,
   (C6_fetch_masking ⟨7, false⟩ 3 kaspaConfig
     (initState kaspaConfig 0 false 0) true 1000000 dExample).2.2.2
     (by decide)⟩
